import Mathlib

/-!
# Verification of the rust_q_sim queue-simulation core

Shallow embedding of the per-partition queue network, the node transition
logic, the message broker and the garage of the distributed traffic
micro-simulator, together with proofs settling the frozen claims about it.

Sources embedded (paths relative to the repository root):
* `src/simulation/network/link.rs`           — link queues (`LocalLink`, `SplitInLink`, `SplitOutLink`, `SimLink`)
* `src/simulation/network/sim_network.rs`    — node transition (`move_node`, `move_vehicle`, `should_veh_move_out`, `create_sim_node`)
* `src/simulation/messaging/message_broker.rs` — `NetMessageBroker` and the channel communicator receive loop
* `src/simulation/simulation.rs`             — `wakeup` dispatch, `departure`, `is_local_route`
* `src/simulation/vehicles/garage.rs`        — `park_veh` / `unpark_veh`

Missing support modules (flow regulator, storage regulator, time queue,
the protobuf message types and their accessors) are modelled from the
specification; each such definition carries a doc comment starting with
`Modelled from the spec:`.

Machine floats (`f32`/`f64`) are embedded as exact rationals `ℚ`; the
`u32` timestamps as `ℕ`.  The thread RNG of the node transition is made
explicit as a list of drawn indices.
-/

namespace RustQSim

/-- Simulation events, restricted to the two variants the claims are about.
`linkLeave`/`linkEnter` carry the value the source passes as the first
argument of `Event::new_link_leave` / `Event::new_link_enter` (a `u64`
interpreted as a link id) and the vehicle id. -/
inductive Event where
  | linkLeave (link : ℕ) (veh : ℕ)
  | linkEnter (link : ℕ) (veh : ℕ)
  deriving DecidableEq, Repr

/-- An events publisher is the list of (time, event) pairs published so far. -/
abbrev EventsList := List (ℕ × Event)

/-- Plan elements of an agent's plan.  Modelled from the spec: the plan is an
ordered sequence of alternating activity and leg elements; a leg carries a
mode, a network route (ordered list of link ids) and a travel time (the
`GenericRoute` travel-time used for teleported legs).  The protobuf
`population` types are not part of the sources. -/
inductive PlanElement where
  | activity (link : ℕ) (act_type : ℕ)
  | leg (mode : ℕ) (route : List ℕ) (travel_time : ℕ)
  deriving DecidableEq, Repr

def PlanElement.isActivity : PlanElement → Bool
  | .activity _ _ => true
  | .leg _ _ _ => false

/-- Modelled from the spec: an agent has an id, a plan and a cursor index
(`curr_plan_elem`) into the plan.  The protobuf `Agent` type and its impl
are not part of the sources. -/
structure Agent where
  id : ℕ
  plan : List PlanElement
  curr_plan_elem : ℕ
  deriving DecidableEq, Repr

/-- Modelled from the spec: the cursor advance increments `curr_plan_elem`. -/
def Agent.advance_plan (a : Agent) : Agent :=
  { a with curr_plan_elem := a.curr_plan_elem + 1 }

def Agent.curr_plan_element (a : Agent) : Option PlanElement :=
  a.plan.get? a.curr_plan_elem

/-- Modelled from the spec: `curr_leg` demands that the current plan element
is a leg (the source asserts this); `none` models the panic. -/
def Agent.curr_leg (a : Agent) : Option (ℕ × List ℕ × ℕ) :=
  match a.curr_plan_element with
  | some (.leg mode route tt) => some (mode, route, tt)
  | _ => none

/-- In-flight vehicle.  Fields `id`, `type` (here `vtype`), `max_v`, `pce`,
`curr_route_elem` and `agent` are those the source constructs in
`Garage::unpark_veh`.  Modelled from the spec: the route (ordered list of
link ids) and the teleportation travel time, which the source keeps inside
the owning agent's current leg, are flattened into the vehicle, since the
protobuf `Vehicle` impl with its route accessors is not part of the
sources. -/
structure Vehicle where
  id : ℕ
  vtype : ℕ
  max_v : ℚ
  pce : ℚ
  curr_route_elem : ℕ
  route : List ℕ
  travel_time : ℕ
  agent : Option Agent
  deriving DecidableEq, Repr

/-- Modelled from the spec: the current link is `route[current_index]`. -/
def Vehicle.curr_link_id (v : Vehicle) : Option ℕ :=
  v.route.get? v.curr_route_elem

/-- Modelled from the spec: the next link is `route[current_index + 1]`. -/
def Vehicle.peek_next_route_element (v : Vehicle) : Option ℕ :=
  v.route.get? (v.curr_route_elem + 1)

/-- Modelled from the spec: advancing the route cursor increments the index. -/
def Vehicle.advance_route_index (v : Vehicle) : Vehicle :=
  { v with curr_route_elem := v.curr_route_elem + 1 }

/-- Modelled from the spec: a route's start link (`GenericRoute` start-link). -/
def Vehicle.start_link (v : Vehicle) : Option ℕ := v.route.head?

/-- Modelled from the spec: a route's end link (`GenericRoute` end-link). -/
def Vehicle.end_link (v : Vehicle) : Option ℕ := v.route.getLast?

/-- Modelled from the spec: a teleported vehicle's release time in the
time-indexed queue is `now + route.travel_time`. -/
def Vehicle.end_time (v : Vehicle) (now : ℕ) : ℕ := now + v.travel_time

/-- Modelled from the spec: storage regulator state — maximum occupancy,
current occupancy and the "released this tick" shadow
(`src/simulation/network/storage_cap.rs` is not part of the sources). -/
structure StorageCap where
  max : ℚ
  used : ℚ
  released : ℚ
  deriving DecidableEq, Repr

/-- Modelled from the spec: `consume(pce)`: used += pce. -/
def StorageCap.consume (s : StorageCap) (pce : ℚ) : StorageCap :=
  { s with used := s.used + pce }

/-- Modelled from the spec: `release(pce)`: released += pce (not yet available). -/
def StorageCap.release (s : StorageCap) (pce : ℚ) : StorageCap :=
  { s with released := s.released + pce }

/-- Modelled from the spec: `apply_released()`: used -= released; released = 0. -/
def StorageCap.apply_released (s : StorageCap) : StorageCap :=
  { s with used := s.used - s.released, released := 0 }

/-- Modelled from the spec: `is_available()`: used < max. -/
def StorageCap.is_available (s : StorageCap) : Bool := s.used < s.max

/-- Modelled from the spec: `clear()`: used = 0 (SplitOut drain). -/
def StorageCap.clear (s : StorageCap) : StorageCap := { s with used := 0 }

/-- Modelled from the spec: flow regulator state — capacity in pce/s, the
accumulator, and the last tick at which it was refilled
(`src/simulation/network/flow_cap.rs` is not part of the sources). -/
structure Flowcap where
  capacity_s : ℚ
  accumulated : ℚ
  last_update : ℕ
  deriving DecidableEq, Repr

/-- Modelled from the spec: `update(now)` — if now > last_tick, add
`capacity_per_s × (now − last_tick)` to the accumulator, clamped at
`max(1, capacity_per_s)`, and set last_tick = now. -/
def Flowcap.update_capacity (f : Flowcap) (now : ℕ) : Flowcap :=
  if f.last_update < now then
    { f with
      accumulated :=
        min (max 1 f.capacity_s) (f.accumulated + f.capacity_s * ((now : ℚ) - (f.last_update : ℚ))),
      last_update := now }
  else f

/-- Modelled from the spec: `has_capacity()`: accumulator > 0. -/
def Flowcap.has_capacity (f : Flowcap) : Bool := 0 < f.accumulated

/-- Modelled from the spec: `consume(pce)`: accumulator -= pce (may go negative). -/
def Flowcap.consume_capacity (f : Flowcap) (pce : ℚ) : Flowcap :=
  { f with accumulated := f.accumulated - pce }

/-- Entry of a local link's queue (`VehicleQEntry`, link.rs). -/
structure VehicleQEntry where
  vehicle : Vehicle
  earliest_exit_time : ℕ
  deriving DecidableEq, Repr

/-- `LocalLink` (link.rs): FIFO of vehicles with earliest-exit times plus
flow and storage regulators. -/
structure LocalLink where
  id : ℕ
  q : List VehicleQEntry
  length : ℚ
  free_speed : ℚ
  storage_cap : StorageCap
  flow_cap : Flowcap
  from_node : ℕ
  to_node : ℕ
  deriving DecidableEq, Repr

/-- `LocalLink::push_veh` (link.rs): speed = min(freespeed, max_v);
duration = max(1, (length / speed) as u32); consume storage by pce; append
at the tail.  The `f64 → u32` cast truncates toward zero and saturates at 0,
which on rationals is `Int.toNat ∘ Int.floor`. -/
def LocalLink.push_veh (l : LocalLink) (vehicle : Vehicle) (now : ℕ) : LocalLink :=
  let speed := min l.free_speed vehicle.max_v
  let duration := max 1 (Int.toNat ⌊l.length / speed⌋)
  let earliest_exit_time := now + duration
  { l with
    storage_cap := l.storage_cap.consume vehicle.pce,
    q := l.q ++ [⟨vehicle, earliest_exit_time⟩] }

/-- `LocalLink::pop_front` (link.rs): remove the head, consume flow capacity
and release storage by its pce; `none` models the panic on an empty queue. -/
def LocalLink.pop_front (l : LocalLink) : Option (Vehicle × LocalLink) :=
  match l.q with
  | [] => none
  | entry :: rest =>
      some (entry.vehicle,
        { l with
          q := rest,
          flow_cap := l.flow_cap.consume_capacity entry.vehicle.pce,
          storage_cap := l.storage_cap.release entry.vehicle.pce })

/-- `LocalLink::update_flow_cap` (link.rs). -/
def LocalLink.update_flow_cap (l : LocalLink) (now : ℕ) : LocalLink :=
  { l with flow_cap := l.flow_cap.update_capacity now }

/-- `LocalLink::q_front` (link.rs): peek the head if flow capacity is left
and the head's earliest exit time has been reached. -/
def LocalLink.q_front (l : LocalLink) (now : ℕ) : Option Vehicle :=
  if ¬ l.flow_cap.has_capacity then none
  else
    match l.q with
    | [] => none
    | entry :: _ => if entry.earliest_exit_time ≤ now then some entry.vehicle else none

/-- `LocalLink::is_available` (link.rs). -/
def LocalLink.is_available (l : LocalLink) : Bool := l.storage_cap.is_available

/-- `LocalLink::update_released_storage_cap` (link.rs). -/
def LocalLink.update_released_storage_cap (l : LocalLink) : LocalLink :=
  { l with storage_cap := l.storage_cap.apply_released }

/-- `SplitOutLink` (link.rs): buffer queue plus storage regulator. -/
structure SplitOutLink where
  id : ℕ
  to_part : ℕ
  q : List Vehicle
  storage_cap : StorageCap
  deriving DecidableEq, Repr

/-- `SplitOutLink::push_veh` (link.rs): consume storage, append. -/
def SplitOutLink.push_veh (ol : SplitOutLink) (veh : Vehicle) : SplitOutLink :=
  { ol with storage_cap := ol.storage_cap.consume veh.pce, q := ol.q ++ [veh] }

/-- `SplitOutLink::take_veh` (link.rs): clear storage and drain the buffer. -/
def SplitOutLink.take_veh (ol : SplitOutLink) : List Vehicle × SplitOutLink :=
  (ol.q, { ol with storage_cap := ol.storage_cap.clear, q := [] })

/-- `SplitOutLink::set_used_storage_cap` (link.rs): clear then reconsume. -/
def SplitOutLink.set_used_storage_cap (ol : SplitOutLink) (value : ℚ) : SplitOutLink :=
  { ol with storage_cap := (ol.storage_cap.clear).consume value }

/-- `SplitInLink` (link.rs): a local link plus the upstream partition. -/
structure SplitInLink where
  from_part : ℕ
  local_link : LocalLink
  deriving DecidableEq, Repr

/-- `SimLink` (link.rs): the three per-partition link variants. -/
inductive SimLink where
  | Local (ll : LocalLink)
  | In (il : SplitInLink)
  | Out (ol : SplitOutLink)
  deriving DecidableEq, Repr

/-- `SimLink::id` (link.rs). -/
def SimLink.id : SimLink → ℕ
  | .Local ll => ll.id
  | .In il => il.local_link.id
  | .Out ol => ol.id

/-- `SimLink::offers_veh` (link.rs).  The outer `Option` distinguishes the
panic on a `SplitOut` (`none`) from a normal answer `some (q_front …)`. -/
def SimLink.offers_veh : SimLink → ℕ → Option (Option Vehicle)
  | .Local ll, now => some (ll.q_front now)
  | .In il, now => some (il.local_link.q_front now)
  | .Out _, _ => none

/-- `SimLink::is_available` (link.rs); `none` models the panic on `In`. -/
def SimLink.is_available : SimLink → Option Bool
  | .Local ll => some ll.is_available
  | .In _ => none
  | .Out ol => some ol.storage_cap.is_available

/-- `SimLink::used_storage` (link.rs). -/
def SimLink.used_storage : SimLink → ℚ
  | .Local ll => ll.storage_cap.used
  | .In il => il.local_link.storage_cap.used
  | .Out ol => ol.storage_cap.used

/-- Released shadow of a link's storage regulator (tests of link.rs read
`storage_cap.released` directly). -/
def SimLink.released_storage : SimLink → ℚ
  | .Local ll => ll.storage_cap.released
  | .In il => il.local_link.storage_cap.released
  | .Out ol => ol.storage_cap.released

/-- `SimLink::push_veh` (link.rs). -/
def SimLink.push_veh : SimLink → Vehicle → ℕ → SimLink
  | .Local ll, v, now => .Local (ll.push_veh v now)
  | .In il, v, now => .In { il with local_link := il.local_link.push_veh v now }
  | .Out ol, v, _ => .Out (ol.push_veh v)

/-- `SimLink::pop_veh` (link.rs); `none` models the panic on a `SplitOut`
(and the panic of `pop_front` on an empty queue). -/
def SimLink.pop_veh : SimLink → Option (Vehicle × SimLink)
  | .Local ll => (ll.pop_front).map (fun p => (p.1, .Local p.2))
  | .In il => (il.local_link.pop_front).map
      (fun p => (p.1, .In { il with local_link := p.2 }))
  | .Out _ => none

/-- `SimLink::update_released_storage_cap` (link.rs); `none` models the
panic on a `SplitOut`. -/
def SimLink.update_released_storage_cap : SimLink → Option SimLink
  | .Local ll => some (.Local ll.update_released_storage_cap)
  | .In il => some (.In { il with local_link := il.local_link.update_released_storage_cap })
  | .Out _ => none

/-- The partition's link map (`IntMap<u64, SimLink>`), embedded as an
association list keyed by internal link id. -/
abbrev Links := List (ℕ × SimLink)

/-- Lookup in the link map (`links.get(&id)`). -/
def linksGet (links : Links) (id : ℕ) : Option SimLink :=
  (links.find? (fun p => p.1 = id)).map Prod.snd

/-- In-place update of one entry of the link map (the effect of mutating
through `links.get_mut(&id)`). -/
def linksSet (links : Links) (id : ℕ) (l : SimLink) : Links :=
  links.map (fun p => if p.1 = id then (id, l) else p)

/-- `SimNetworkPartition::move_vehicle` (sim_network.rs, lines 300–319):
publish link-leave with `vehicle.curr_route_elem as u64` as the link field,
advance the route index, look up the next link, publish link-enter with
that link's id, and push the vehicle onto it.  `none` models the unwrap
panics (route exhausted or unknown link id). -/
def move_vehicle (vehicle : Vehicle) (links : Links) (events : EventsList) (now : ℕ) :
    Option (Links × EventsList) :=
  let events1 := events ++ [(now, Event.linkLeave vehicle.curr_route_elem vehicle.id)]
  let v1 := vehicle.advance_route_index
  match v1.curr_link_id with
  | none => none
  | some link_id =>
      match linksGet links link_id with
      | none => none
      | some link =>
          let events2 := events1 ++ [(now, Event.linkEnter link.id v1.id)]
          some (linksSet links link_id (link.push_veh v1 now), events2)

/-- `SimNetworkPartition::should_veh_move_out` (sim_network.rs): the in-link
offers a vehicle and either the vehicle's route is finished or its next
link has storage available.  `none` models the panics (unknown link id,
offering from an out link, availability of an in link). -/
def should_veh_move_out (in_id : ℕ) (links : Links) (now : ℕ) : Option Bool :=
  match linksGet links in_id with
  | none => none
  | some in_link =>
      match in_link.offers_veh now with
      | none => none
      | some none => some false
      | some (some veh_ref) =>
          match veh_ref.peek_next_route_element with
          | some next_id_int =>
              match linksGet links next_id_int with
              | none => none
              | some out_link => out_link.is_available
          | none => some true

/-- `SimNode` (sim_network.rs): node id, in-link ids, and the optional
capacity-weighted sampler over the in-links (embedded as the weight list). -/
structure SimNode where
  id : ℕ
  in_links : List ℕ
  in_links_weights : Option (List ℚ)
  deriving DecidableEq, Repr

/-- A node of the global network (`global_network::Node`), restricted to
the fields `create_sim_node` reads. -/
structure Node where
  id : ℕ
  in_links : List ℕ
  out_links : List ℕ
  partition : ℕ
  deriving DecidableEq, Repr

/-- A link of the global network (`global_network::Link`), restricted to
the fields the embedded functions read. -/
structure GlobalLink where
  id : ℕ
  from_node : ℕ
  to_node : ℕ
  length : ℚ
  capacity : ℚ
  freespeed : ℚ
  permlanes : ℚ
  partition : ℕ
  deriving DecidableEq, Repr

/-- The global network (`global_network::Network`): links indexed by
internal id (the source stores them in a vector indexed that way). -/
structure Network where
  nodes : List Node
  links : List GlobalLink
  effective_cell_size : ℚ
  deriving DecidableEq, Repr

/-- The capacity-collection loop of `create_sim_node`: look every in-link
up in the global link vector; `none` models the unwrap panic on an
unknown index. -/
def collectCapacities (links : List GlobalLink) : List ℕ → Option (List ℚ)
  | [] => some []
  | l_id :: rest =>
      match links.get? l_id with
      | none => none
      | some link => (collectCapacities links rest).map (link.capacity :: ·)

/-- `SimNetworkPartition::create_sim_node` (sim_network.rs, lines 76–97):
collect the in-link capacities; the weighted sampler is `None` exactly
when the capacity list is empty. -/
def create_sim_node (node : Node) (network : Network) : Option SimNode :=
  match collectCapacities network.links node.in_links with
  | none => none
  | some capacities =>
      some { id := node.id,
             in_links := node.in_links,
             in_links_weights := if capacities.isEmpty then none else some capacities }

/-- One observed iteration of the per-node transition loop: a redraw of an
already-unavailable in-link, the marking of an in-link as unavailable, or a
pop (the popped vehicle either exits the network or moves to its next
link). -/
inductive Step where
  | redraw (link_id : ℕ)
  | mark (link_id : ℕ)
  | popExit (veh_id : ℕ)
  | popMove (veh_id : ℕ)
  deriving DecidableEq, Repr

def Step.isMark : Step → Bool
  | .mark _ => true
  | _ => false

def Step.isPop : Step → Bool
  | .popExit _ => true
  | .popMove _ => true
  | _ => false

def Step.isRedraw : Step → Bool
  | .redraw _ => true
  | _ => false

/-- Mutable state threaded through `move_node`: the link map, the set of
in-links marked unavailable this tick, the exited vehicles and the events
published so far. -/
structure MoveNodeState where
  links : Links
  unavailable : Finset ℕ
  exited : List Vehicle
  events : EventsList
  deriving DecidableEq

/-- `SimNetworkPartition::move_node` (sim_network.rs, lines 225–262), with
the weighted random sampler made explicit: `draws` is the list of sampled
in-link indices the RNG produces.  Each loop iteration consumes one draw.
The run stops when all in-links are unavailable (`true`), or when the draw
list is exhausted while the loop guard still holds (`false` — the real
loop would keep drawing).  `none` models the panics (sampler unwrap,
invalid index, map unwraps).  Besides the final state it returns the trace
of loop iterations. -/
def moveNodeRun (node : SimNode) (now : ℕ) :
    List ℕ → MoveNodeState → Option (MoveNodeState × List Step × Bool)
  | draws, s =>
    if node.in_links.length ≤ s.unavailable.card then some (s, [], true)
    else
      match draws with
      | [] => some (s, [], false)
      | d :: rest =>
          match node.in_links_weights with
          | none => none
          | some _ =>
              match node.in_links.get? d with
              | none => none
              | some in_link_id =>
                  if in_link_id ∈ s.unavailable then
                    (moveNodeRun node now rest s).map
                      (fun r => (r.1, Step.redraw in_link_id :: r.2.1, r.2.2))
                  else
                    match should_veh_move_out in_link_id s.links now with
                    | none => none
                    | some true =>
                        match linksGet s.links in_link_id with
                        | none => none
                        | some in_link =>
                            match in_link.pop_veh with
                            | none => none
                            | some (veh, in_link') =>
                                let links1 := linksSet s.links in_link_id in_link'
                                match veh.peek_next_route_element with
                                | some _ =>
                                    match move_vehicle veh links1 s.events now with
                                    | none => none
                                    | some (links2, events2) =>
                                        (moveNodeRun node now rest
                                            { s with links := links2, events := events2 }).map
                                          (fun r => (r.1, Step.popMove veh.id :: r.2.1, r.2.2))
                                | none =>
                                    (moveNodeRun node now rest
                                        { s with links := links1,
                                                 exited := s.exited ++ [veh] }).map
                                      (fun r => (r.1, Step.popExit veh.id :: r.2.1, r.2.2))
                    | some false =>
                        (moveNodeRun node now rest
                            { s with unavailable := insert in_link_id s.unavailable }).map
                          (fun r => (r.1, Step.mark in_link_id :: r.2.1, r.2.2))

/-- `SyncMessage` (wire type, fields as used by message_broker.rs):
header (tick, from-process, to-process) plus vehicles and storage-cap
reports.  Modelled from the spec: the protobuf message type itself is not
part of the sources; `Message` is `(from-process, to-process, tick,
vehicles, storage-cap reports)`. -/
structure SyncMessage where
  time : ℕ
  from_process : ℕ
  to_process : ℕ
  vehicles : List Vehicle
  storage_capacities : List (ℕ × ℚ)
  deriving DecidableEq, Repr

/-- `SyncMessage::new(time, from, to)`: empty payload. -/
def SyncMessage.new (time from_process to_process : ℕ) : SyncMessage :=
  ⟨time, from_process, to_process, [], []⟩

/-- Outbound message map of the broker (`HashMap<u32, SyncMessage>`),
embedded as an association list keyed by destination rank. -/
abbrev OutMessages := List (ℕ × SyncMessage)

/-- Number of entries for one destination key. -/
def countKey (msgs : OutMessages) (n : ℕ) : ℕ :=
  (msgs.filter (fun p => p.1 = n)).length

/-- Key lookup (`HashMap::get` / `entry` hit). -/
def lookupKey (msgs : OutMessages) (n : ℕ) : Option SyncMessage :=
  (msgs.find? (fun p => p.1 = n)).map Prod.snd

/-- `NetMessageBroker::prepare_send_recv_vehicles` (message_broker.rs,
lines 428–440): take the outbound map and, for every neighbor without an
entry, insert the empty message `SyncMessage::new(now, rank, neighbor)`. -/
def prepare_send_recv_vehicles (rank : ℕ) (out_messages : OutMessages)
    (neighbors : List ℕ) (now : ℕ) : OutMessages :=
  neighbors.foldl
    (fun msgs neighbor_rank =>
      if (lookupKey msgs neighbor_rank).isSome then msgs
      else msgs ++ [(neighbor_rank, SyncMessage.new now rank neighbor_rank)])
    out_messages

/-- `ChannelSimCommunicator::send_receive_vehicles` receive loop
(message_broker.rs, lines 96–131): while some expected neighbor is
missing, receive the next message from the channel; a message whose tick
equals `now` removes its sender from the expected set; every received
message is handed to `on_msg`.  The channel is embedded as the list
`stream` of messages it will yield in order; `none` models blocking
forever because the stream is exhausted while a neighbor is still
expected.  On success the consumed messages are returned in order. -/
def send_receive_vehicles (stream : List SyncMessage) (expected : Finset ℕ)
    (now : ℕ) : Option (List SyncMessage) :=
  if expected = ∅ then some []
  else
    match stream with
    | [] => none
    | m :: rest =>
        let expected1 := if m.time = now then expected.erase m.from_process else expected
        (send_receive_vehicles rest expected1 now).map (m :: ·)

/-- `NetMessageBroker::pop_from_cache` (message_broker.rs): pop buffered
messages while the front of the by-tick priority queue has tick ≤ now,
removing their senders from the expected set.  The `BinaryHeap` ordered by
tick is embedded as a list sorted by ascending tick.  Returns (delivered
messages, remaining expected set, remaining cache). -/
def pop_from_cache (cache : List SyncMessage) (expected : Finset ℕ) (now : ℕ) :
    List SyncMessage × Finset ℕ × List SyncMessage :=
  match cache with
  | [] => ([], expected, [])
  | m :: rest =>
      if m.time ≤ now then
        let r := pop_from_cache rest (expected.erase m.from_process) now
        (m :: r.1, r.2.1, r.2.2)
      else ([], expected, m :: rest)

/-- `NetMessageBroker` (message_broker.rs), with the communicator's
incoming channel made explicit when running `send_recv`. -/
structure NetMessageBroker where
  rank : ℕ
  out_messages : OutMessages
  in_messages : List SyncMessage
  neighbors : List ℕ
  deriving DecidableEq, Repr

/-- `NetMessageBroker::handle_incoming_msg` applied to the received list:
messages with tick ≤ now go to the result, later ones to the cache. -/
def split_incoming (received : List SyncMessage) (now : ℕ) :
    List SyncMessage × List SyncMessage :=
  (received.filter (fun m => m.time ≤ now), received.filter (fun m => ¬ m.time ≤ now))

/-- `NetMessageBroker::send_recv` (message_broker.rs): prepare the outbound
map (one message per neighbor), pop eligible cached messages, then run the
communicator's receive loop on the incoming `stream`; received messages
with tick ≤ now are delivered, later ones buffered.  `none` models
blocking forever. -/
def NetMessageBroker.send_recv (b : NetMessageBroker) (stream : List SyncMessage)
    (now : ℕ) : Option (List SyncMessage × NetMessageBroker) :=
  let _sent := prepare_send_recv_vehicles b.rank b.out_messages b.neighbors now
  let cacheRes := pop_from_cache b.in_messages b.neighbors.toFinset now
  match send_receive_vehicles stream cacheRes.2.1 now with
  | none => none
  | some received =>
      let inc := split_incoming received now
      some (cacheRes.1 ++ inc.1,
        { b with
          out_messages := [],
          in_messages := cacheRes.2.2 ++ inc.2 })

/-- The messages handed to the communicator by `send_recv` (the `vehicles`
argument of `send_receive_vehicles`). -/
def NetMessageBroker.sent_messages (b : NetMessageBroker) (now : ℕ) : OutMessages :=
  prepare_send_recv_vehicles b.rank b.out_messages b.neighbors now

/-- `LevelOfDetail` (vehicle type): NETWORK or TELEPORTED. -/
inductive LevelOfDetail where
  | network
  | teleported
  deriving DecidableEq, Repr

/-- `VehicleType` (vehicles module), restricted to the fields the embedded
functions read. -/
structure VehicleType where
  id : ℕ
  max_v : ℚ
  pce : ℚ
  net_mode : ℕ
  lod : LevelOfDetail
  deriving DecidableEq, Repr

/-- `GarageVehicle` (garage.rs): a parked vehicle record. -/
structure GarageVehicle where
  id : ℕ
  veh_type : ℕ
  deriving DecidableEq, Repr

/-- `Garage` (garage.rs), restricted to the parked-vehicle map and the
vehicle-type registry, both embedded as association lists keyed by
internal id (the id store resolves wire ids to ids that compare by the
internal integer, id/mod.rs). -/
structure Garage where
  vehicles : List (ℕ × GarageVehicle)
  vehicle_types : List (ℕ × VehicleType)
  deriving DecidableEq, Repr

def Garage.vehiclesGet (g : Garage) (id : ℕ) : Option GarageVehicle :=
  (g.vehicles.find? (fun p => p.1 = id)).map Prod.snd

def Garage.typesGet (g : Garage) (id : ℕ) : Option VehicleType :=
  (g.vehicle_types.find? (fun p => p.1 = id)).map Prod.snd

/-- Insert into the parked-vehicle map (`HashMap::insert`). -/
def Garage.vehiclesInsert (g : Garage) (id : ℕ) (gv : GarageVehicle) : Garage :=
  { g with vehicles := (id, gv) :: g.vehicles.filter (fun p => ¬ p.1 = id) }

/-- Remove from the parked-vehicle map (`HashMap::remove`). -/
def Garage.vehiclesRemove (g : Garage) (id : ℕ) : Garage :=
  { g with vehicles := g.vehicles.filter (fun p => ¬ p.1 = id) }

/-- The modelled route and travel time of a departing vehicle, taken from
the agent's current leg (spec §3: the route lives in the leg). -/
def legRouteOf (person : Agent) : List ℕ × ℕ :=
  match person.curr_leg with
  | some (_, route, tt) => (route, tt)
  | none => ([], 0)

/-- `Garage::unpark_veh` (garage.rs, lines 145–157): remove the parked
record, look up its vehicle type, and build a fresh in-flight vehicle with
route index 0, the type's max_v and pce, owned by the agent.  `none`
models the unwrap panics (vehicle not parked / unknown type). -/
def Garage.unpark_veh (g : Garage) (person : Agent) (id : ℕ) : Option (Vehicle × Garage) :=
  match g.vehiclesGet id with
  | none => none
  | some garage_veh =>
      match g.typesGet garage_veh.veh_type with
      | none => none
      | some veh_type =>
          let legRoute := legRouteOf person
          some ({ id := id,
                  vtype := veh_type.id,
                  max_v := veh_type.max_v,
                  pce := veh_type.pce,
                  curr_route_elem := 0,
                  route := legRoute.1,
                  travel_time := legRoute.2,
                  agent := some person }, g.vehiclesRemove id)

/-- `Garage::park_veh` (garage.rs, lines 136–143): re-insert the record
built from the vehicle's wire ids and return the owned agent; `none`
models the unwrap panic on a vehicle without an agent. -/
def Garage.park_veh (g : Garage) (vehicle : Vehicle) : Option (Agent × Garage) :=
  let garage_veh : GarageVehicle := { id := vehicle.id, veh_type := vehicle.vtype }
  (vehicle.agent).map (fun a => (a, g.vehiclesInsert garage_veh.id garage_veh))

/-- `Simulation::is_local_route` (simulation.rs, lines 258–264): the
partitions owning the route's start and end links coincide.
`link_mapping` is the broker's link-id → partition map; `none` models the
unwrap panics (vehicle without agent/leg, unknown link). -/
def is_local_route (veh : Vehicle) (link_mapping : ℕ → Option ℕ) : Option Bool :=
  match veh.start_link, veh.end_link with
  | some s, some e =>
      match link_mapping s, link_mapping e with
      | some from_rank, some to_rank => some (from_rank = to_rank)
      | _, _ => none
  | _, _ => none

/-- Where `Simulation::wakeup` sends a freshly departed vehicle. -/
inductive WakeupAction where
  | ontoNetwork (veh : Vehicle)
  | teleportQueue (release : ℕ) (veh : Vehicle)
  | toBroker (veh : Vehicle)
  deriving DecidableEq, Repr

/-- The dispatch of `Simulation::wakeup` (simulation.rs, lines 127–145):
NETWORK vehicles go onto the network; TELEPORTED vehicles go to the local
teleportation queue when the route is local (the time queue stores them at
the vehicle's end time, modelled from the spec as `now + travel_time`),
otherwise their route cursor is advanced and they are handed to the
broker. -/
def wakeup_dispatch (lod : LevelOfDetail) (veh : Vehicle)
    (link_mapping : ℕ → Option ℕ) (now : ℕ) : Option WakeupAction :=
  match lod with
  | .network => some (.ontoNetwork veh)
  | .teleported =>
      match is_local_route veh link_mapping with
      | none => none
      | some true => some (.teleportQueue (veh.end_time now) veh)
      | some false => some (.toBroker veh.advance_route_index)

/-- `Simulation::departure` (simulation.rs, lines 149–169), up to the
garage call: advance the plan cursor, assert the cursor is odd
(`assert_ne!(curr_plan_elem % 2, 0)`), and read the current leg.  `none`
models the assertion failure or a current element that is not a leg. -/
def departure (agent : Agent) : Option (Agent × (ℕ × List ℕ × ℕ)) :=
  let a1 := agent.advance_plan
  if a1.curr_plan_elem % 2 = 0 then none
  else (a1.curr_leg).map (fun leg => (a1, leg))

def Step.isPopExit : Step → Bool
  | .popExit _ => true
  | _ => false

/-- Marking iterations of a per-node transition trace. -/
def countMarks (tr : List Step) : ℕ := (tr.filter Step.isMark).length

/-- Popping iterations (vehicles moved) of a per-node transition trace. -/
def countPops (tr : List Step) : ℕ := (tr.filter Step.isPop).length

/-- Redraw iterations of a per-node transition trace. -/
def countRedraws (tr : List Step) : ℕ := (tr.filter Step.isRedraw).length

/-- Pop iterations whose vehicle finished its route. -/
def countExits (tr : List Step) : ℕ := (tr.filter Step.isPopExit).length

/-- A local link with an empty queue, unit length and speed, free storage
and one unit of accumulated flow capacity (concrete test data). -/
def emptyLocal (id : ℕ) : LocalLink :=
  { id := id, q := [], length := 1, free_speed := 1,
    storage_cap := { max := 10, used := 0, released := 0 },
    flow_cap := { capacity_s := 1, accumulated := 1, last_update := 0 },
    from_node := 0, to_node := 0 }

/-- An agent-less vehicle (concrete test data). -/
def mkVeh (id : ℕ) (pce : ℚ) (max_v : ℚ) (route : List ℕ) : Vehicle :=
  { id := id, vtype := 0, max_v := max_v, pce := pce, curr_route_elem := 0,
    route := route, travel_time := 0, agent := none }

/-- Failing input for the link-leave event id: vehicle 1 sits on in-link 5
(the first element of its route [5, 7]) with next link 7. -/
def c1Veh : Vehicle := mkVeh 1 1 10 [5, 7]

/-- Link map for the failing input: in-link 5 and next link 7. -/
def c1Links : Links :=
  [(5, .Local { emptyLocal 5 with q := [⟨c1Veh, 0⟩] }), (7, .Local (emptyLocal 7))]

/-- A node with two empty in-links (ids 10 and 20), for the transition-loop
counterexample. -/
def c3Node : SimNode := { id := 0, in_links := [10, 20], in_links_weights := some [1, 1] }

/-- Initial transition state for `c3Node`: both in-links empty, nothing
marked. -/
def c3State : MoveNodeState :=
  { links := [(10, .Local (emptyLocal 10)), (20, .Local (emptyLocal 20))],
    unavailable := ∅, exited := [], events := [] }

/-- Concrete local link with an empty queue for the push/exit-time witness:
length 100, freespeed 10. -/
def c5Link : LocalLink := { emptyLocal 3 with length := 100, free_speed := 10 }

/-- Concrete vehicle for the push/exit-time witness: max_v 20, pce 3/2. -/
def c5Veh : Vehicle := mkVeh 9 (3/2) 20 [3]

/-- Concrete local link holding one vehicle for the storage-lag witness. -/
def c4Link : LocalLink :=
  { emptyLocal 1 with q := [⟨mkVeh 7 (3/2) 10 [5], 0⟩],
                      storage_cap := { max := 10, used := 3/2, released := 0 } }

/-- Concrete broker for the send/receive witness: rank 0, no pending
messages, single neighbor 1. -/
def c2Broker : NetMessageBroker :=
  { rank := 0, out_messages := [], in_messages := [], neighbors := [1] }

/-- Concrete incoming stream for the send/receive witness: one tick-0
message from neighbor 1. -/
def c2Stream : List SyncMessage := [SyncMessage.new 0 1 0]

/-- Concrete garage for the park/unpark witness: vehicle 4 of type 2 is
parked, type 2 has max_v 13 and pce 2. -/
def c9Garage : Garage :=
  { vehicles := [(4, { id := 4, veh_type := 2 })],
    vehicle_types := [(2, { id := 2, max_v := 13, pce := 2, net_mode := 0,
                            lod := .network })] }

/-- Concrete agent for the departure witness: activity, leg, activity plan,
cursor on the first activity. -/
def c8Agent : Agent :=
  { id := 5,
    plan := [.activity 0 0, .leg 1 [0, 2] 8, .activity 2 0],
    curr_plan_elem := 0 }

/-- Concrete teleported vehicle for the wakeup witness: route [4, 8],
travel time 8. -/
def c6Veh : Vehicle := { mkVeh 2 1 10 [4, 8] with travel_time := 8 }

/-- Concrete link→partition mapping for the wakeup witness: link 4 on
partition 0, link 8 on partition 3. -/
def c6Mapping : ℕ → Option ℕ
  | 4 => some 0
  | 8 => some 3
  | _ => none

/-- The link `c4Link` after its vehicle has been popped: queue empty, flow
capacity consumed, pce accumulated in the released shadow. -/
def c4LinkPopped : LocalLink :=
  { c4Link with
    q := [],
    flow_cap := c4Link.flow_cap.consume_capacity (3/2),
    storage_cap := c4Link.storage_cap.release (3/2) }

/-- Concrete agent for the park/unpark witness. -/
def c9Agent : Agent := { id := 11, plan := [], curr_plan_elem := 0 }

/-- Concrete node and network for the empty-in-links witness. -/
def c10Node : Node := { id := 2, in_links := [], out_links := [6], partition := 0 }

/-- Concrete global network for the empty-in-links witness. -/
def c10Net : Network :=
  { nodes := [c10Node],
    links := [{ id := 0, from_node := 2, to_node := 2, length := 1, capacity := 1,
                freespeed := 1, permlanes := 1, partition := 0 }],
    effective_cell_size := 15/2 }

/-- C7: a `SplitOut` link is a buffer only: `pop_veh` on it panics, and so
does querying it for an offered vehicle; no execution path returns a
vehicle from a `SplitOut` via pop. -/
theorem split_out_never_pops (ol : SplitOutLink) (now : ℕ) :
    SimLink.pop_veh (SimLink.Out ol) = none ∧
    SimLink.offers_veh (SimLink.Out ol) now = none :=
  ⟨rfl, rfl⟩

/-- C4: popping a vehicle from a Local or SplitIn link leaves the used
storage unchanged in the same tick — the vehicle's pce is only accumulated
into the released shadow — and the used storage decreases by exactly the
released amount, with the shadow reset to zero, only when
`update_released_storage_cap` applies it. -/
theorem pop_lags_storage_release (sl : SimLink) (v : Vehicle) (sl' : SimLink)
    (hpop : sl.pop_veh = some (v, sl')) :
    sl'.used_storage = sl.used_storage ∧
    sl'.released_storage = sl.released_storage + v.pce ∧
    ∃ sl'', sl'.update_released_storage_cap = some sl'' ∧
      sl''.used_storage = sl'.used_storage - sl'.released_storage ∧
      sl''.released_storage = 0 := by
  cases sl with
  | Local ll =>
      cases hq : ll.q with
      | nil => simp [SimLink.pop_veh, LocalLink.pop_front, hq] at hpop
      | cons e rest =>
          simp [SimLink.pop_veh, LocalLink.pop_front, hq] at hpop
          obtain ⟨hv, hsl⟩ := hpop
          subst hv
          subst hsl
          refine ⟨rfl, rfl, _, rfl, ?_, rfl⟩
          simp [SimLink.used_storage, SimLink.released_storage,
            SimLink.update_released_storage_cap, LocalLink.update_released_storage_cap,
            StorageCap.apply_released, StorageCap.release]
  | In il =>
      cases hq : il.local_link.q with
      | nil => simp [SimLink.pop_veh, LocalLink.pop_front, hq] at hpop
      | cons e rest =>
          simp [SimLink.pop_veh, LocalLink.pop_front, hq] at hpop
          obtain ⟨hv, hsl⟩ := hpop
          subst hv
          subst hsl
          refine ⟨rfl, rfl, _, rfl, ?_, rfl⟩
          simp [SimLink.used_storage, SimLink.released_storage,
            SimLink.update_released_storage_cap, LocalLink.update_released_storage_cap,
            StorageCap.apply_released, StorageCap.release]
  | Out ol => simp [SimLink.pop_veh] at hpop

/-- Witness for `pop_lags_storage_release` at a concrete Local link holding
one vehicle of pce 3/2. -/
theorem pop_lags_storage_release_witness :
    (SimLink.Local c4Link).pop_veh = some (mkVeh 7 (3/2) 10 [5], SimLink.Local c4LinkPopped) ∧
    ((SimLink.Local c4LinkPopped).used_storage = (SimLink.Local c4Link).used_storage ∧
     (SimLink.Local c4LinkPopped).released_storage =
        (SimLink.Local c4Link).released_storage + (mkVeh 7 (3/2) 10 [5]).pce ∧
     ∃ sl'', (SimLink.Local c4LinkPopped).update_released_storage_cap = some sl'' ∧
       sl''.used_storage =
          (SimLink.Local c4LinkPopped).used_storage -
            (SimLink.Local c4LinkPopped).released_storage ∧
       sl''.released_storage = 0) :=
  ⟨rfl,
   pop_lags_storage_release (SimLink.Local c4Link) (mkVeh 7 (3/2) 10 [5])
     (SimLink.Local c4LinkPopped) rfl⟩

/-- C5: pushing a vehicle onto a local link at time `now` appends it at the
tail of the FIFO with earliest exit time
`now + max(1, ⌊length / min(freespeed, max_v)⌋)`, consumes storage by its
pce, and the link never offers that vehicle (hence its LinkLeave is never
emitted) before that exit time. -/
theorem push_veh_exit_time (l : LocalLink) (v : Vehicle) (now : ℕ) :
    (l.push_veh v now).q =
        l.q ++ [⟨v, now + max 1 (Int.toNat ⌊l.length / min l.free_speed v.max_v⌋)⟩] ∧
    (l.push_veh v now).storage_cap.used = l.storage_cap.used + v.pce ∧
    (∀ t w, l.q = [] → (l.push_veh v now).q_front t = some w →
      w = v ∧ now + max 1 (Int.toNat ⌊l.length / min l.free_speed v.max_v⌋) ≤ t) := by
  refine ⟨rfl, rfl, ?_⟩
  intro t w hq hfront
  simp only [LocalLink.push_veh, LocalLink.q_front, hq, List.nil_append] at hfront
  split at hfront
  · exact absurd hfront (by simp)
  · split at hfront
    · exact ⟨by injection hfront with h; exact h.symm, by assumption⟩
    · exact absurd hfront (by simp)

/-- Witness for `push_veh_exit_time`: a vehicle pushed at t = 0 onto an
empty link of length 100 and freespeed 10 is offered at t = 10. -/
theorem push_veh_exit_time_witness :
    c5Link.q = [] ∧ (c5Link.push_veh c5Veh 0).q_front 10 = some c5Veh ∧
    (c5Veh = c5Veh ∧
      0 + max 1 (Int.toNat ⌊c5Link.length / min c5Link.free_speed c5Veh.max_v⌋) ≤ 10) := by
  have h1 : c5Link.q = [] := rfl
  have h2 : (c5Link.push_veh c5Veh 0).q_front 10 = some c5Veh := by
    have hfloor : ⌊(100 : ℚ) / min 10 20⌋ = 10 := by
      rw [min_def]
      norm_num
    simp [LocalLink.push_veh, LocalLink.q_front, Flowcap.has_capacity, c5Link, c5Veh,
      emptyLocal, mkVeh, hfloor]
  exact ⟨h1, h2, (push_veh_exit_time c5Link c5Veh 0).2.2 10 c5Veh h1 h2⟩

/-- C1 (failing input): `move_vehicle` publishes the LinkLeave event with
the vehicle's route *index* (`curr_route_elem`) as the link field, not the
id of the in-link the vehicle was popped from.  For vehicle 1 popped from
in-link 5 (route [5, 7], index 0) it emits LinkLeave(0) — while the
in-link id is 5 — followed by LinkEnter(7); the enter on link 7 is never
matched by a leave on link 7. -/
theorem move_vehicle_link_leave_uses_route_index :
    (move_vehicle c1Veh c1Links [] 0).map (fun r => r.2) =
      some [(0, Event.linkLeave 0 1), (0, Event.linkEnter 7 1)] ∧
    c1Veh.curr_link_id = some 5 ∧
    Event.linkLeave 0 1 ≠ Event.linkLeave 5 1 := by decide

/-- `collectCapacities` succeeds with one capacity per in-link. -/
theorem collectCapacities_length (links : List GlobalLink) :
    ∀ ids caps, collectCapacities links ids = some caps → caps.length = ids.length := by
  intro ids
  induction ids with
  | nil =>
      intro caps h
      rw [collectCapacities] at h
      cases h
      rfl
  | cons l_id rest ih =>
      intro caps h
      rw [collectCapacities] at h
      cases hl : links.get? l_id with
      | none => rw [hl] at h; cases h
      | some link =>
          rw [hl] at h
          cases hr : collectCapacities links rest with
          | none => rw [hr] at h; cases h
          | some caps' =>
              rw [hr] at h
              cases h
              simp [ih caps' hr]

/-- The transition loop of a node without in-links ends before its first
iteration. -/
theorem moveNodeRun_no_in_links (sn : SimNode) (hin : sn.in_links = [])
    (now : ℕ) (draws : List ℕ) (s : MoveNodeState) :
    moveNodeRun sn now draws s = some (s, [], true) := by
  have hzero : sn.in_links.length ≤ s.unavailable.card := by simp [hin]
  cases draws with
  | nil => rw [moveNodeRun, if_pos hzero]
  | cons d rest => rw [moveNodeRun, if_pos hzero]

/-- C10: for a node with an empty in-links list the weighted in-link
sampler is `None` (and it is `None` exactly for such nodes), and the
per-node transition loop performs zero iterations and returns immediately,
never touching the sampler. -/
theorem empty_in_links_skips_sampler (node : Node) (net : Network) (sn : SimNode)
    (hnode : create_sim_node node net = some sn) :
    (sn.in_links_weights = none ↔ node.in_links = []) ∧
    (node.in_links = [] →
      ∀ now draws s, moveNodeRun sn now draws s = some (s, [], true)) := by
  rw [create_sim_node] at hnode
  cases hc : collectCapacities net.links node.in_links with
  | none => rw [hc] at hnode; cases hnode
  | some caps =>
      rw [hc] at hnode
      injection hnode with hnode
      subst hnode
      have hlen := collectCapacities_length net.links node.in_links caps hc
      have hiff : caps = [] ↔ node.in_links = [] := by
        constructor
        · intro h; rw [h] at hlen; exact List.length_eq_zero.mp hlen.symm
        · intro h; rw [h] at hlen; exact List.length_eq_zero.mp hlen
      constructor
      · show (if caps.isEmpty = true then none else some caps) = none ↔ node.in_links = []
        by_cases hemp : caps = []
        · simp [hemp, hiff.mp hemp]
        · have h1 : caps.isEmpty = false := by
            cases caps with
            | nil => exact absurd rfl hemp
            | cons a l => rfl
          have h2 : ¬ node.in_links = [] := fun h => hemp (hiff.mpr h)
          simp [h1, h2]
      · intro hin now draws s
        exact moveNodeRun_no_in_links _ hin now draws s

/-- Witness for `empty_in_links_skips_sampler` at a concrete node without
in-links. -/
theorem empty_in_links_skips_sampler_witness :
    create_sim_node c10Node c10Net =
      some { id := 2, in_links := [], in_links_weights := none } ∧
    (({ id := 2, in_links := [], in_links_weights := none } : SimNode).in_links_weights = none ↔
      c10Node.in_links = []) ∧
    moveNodeRun { id := 2, in_links := [], in_links_weights := none } 0 []
        { links := [], unavailable := ∅, exited := [], events := [] } =
      some ({ links := [], unavailable := ∅, exited := [], events := [] }, [], true) := by
  have h : create_sim_node c10Node c10Net =
      some { id := 2, in_links := [], in_links_weights := none } := rfl
  have main := empty_in_links_skips_sampler c10Node c10Net _ h
  exact ⟨h, main.1, main.2 rfl 0 [] _⟩

/-- C6: during wakeup a departing TELEPORTED vehicle is added to the local
teleportation queue, released at `now + route.travel_time`, when the
partitions owning the route's start and end links coincide; otherwise its
route cursor is advanced to the end link and it is handed to the message
broker. -/
theorem wakeup_teleported_dispatch (veh : Vehicle) (mapping : ℕ → Option ℕ)
    (now : ℕ) (s e ps pe : ℕ)
    (hroute : veh.route = [s, e])
    (hidx : veh.curr_route_elem = 0)
    (hs : mapping s = some ps) (he : mapping e = some pe) :
    (ps = pe →
      wakeup_dispatch .teleported veh mapping now =
        some (.teleportQueue (now + veh.travel_time) veh)) ∧
    (¬ ps = pe →
      wakeup_dispatch .teleported veh mapping now =
        some (.toBroker veh.advance_route_index) ∧
      (veh.advance_route_index).curr_link_id = some e) := by
  have hstart : veh.start_link = some s := by simp [Vehicle.start_link, hroute]
  have hend : veh.end_link = some e := by simp [Vehicle.end_link, hroute]
  have hloc : is_local_route veh mapping = some (decide (ps = pe)) := by
    simp only [is_local_route, hstart, hend, hs, he]
  constructor
  · intro hpp
    simp [wakeup_dispatch, hloc, hpp, Vehicle.end_time]
  · intro hpp
    refine ⟨by simp [wakeup_dispatch, hloc, hpp], ?_⟩
    simp [Vehicle.curr_link_id, Vehicle.advance_route_index, hroute, hidx]

/-- Witness for `wakeup_teleported_dispatch`: route [4, 8] with partitions
0 and 3, so the vehicle is handed to the broker with its cursor on link 8. -/
theorem wakeup_teleported_dispatch_witness :
    c6Veh.route = [4, 8] ∧ c6Veh.curr_route_elem = 0 ∧
    c6Mapping 4 = some 0 ∧ c6Mapping 8 = some 3 ∧
    ((0 = 3 →
      wakeup_dispatch .teleported c6Veh c6Mapping 5 =
        some (.teleportQueue (5 + c6Veh.travel_time) c6Veh)) ∧
     (¬ (0 = 3) →
      wakeup_dispatch .teleported c6Veh c6Mapping 5 =
        some (.toBroker c6Veh.advance_route_index) ∧
      (c6Veh.advance_route_index).curr_link_id = some 8)) :=
  ⟨rfl, rfl, rfl, rfl,
   wakeup_teleported_dispatch c6Veh c6Mapping 5 4 8 0 3 rfl rfl rfl rfl⟩

/-- C8: for an agent whose plan alternates activities (even indices) and
legs (odd indices) and whose cursor is on an activity, `departure`
advances the cursor to an odd index, its assertion
`curr_plan_elem % 2 != 0` never fires, and the agent lands on a leg. -/
theorem departure_lands_on_leg (a : Agent)
    (halt : ∀ i pe, a.plan.get? i = some pe → (pe.isActivity = true ↔ i % 2 = 0))
    (hcur : a.curr_plan_elem % 2 = 0)
    (hlen : a.curr_plan_elem + 1 < a.plan.length) :
    ∃ leg, departure a = some (a.advance_plan, leg) ∧
      (a.advance_plan).curr_plan_elem % 2 = 1 := by
  have hodd : (a.curr_plan_elem + 1) % 2 = 1 := by omega
  obtain ⟨pe, hpe⟩ : ∃ pe, a.plan.get? (a.curr_plan_elem + 1) = some pe :=
    ⟨_, List.get?_eq_get hlen⟩
  cases pe with
  | activity l t =>
      have := (halt _ _ hpe).mp rfl
      omega
  | leg m r tt =>
      have hpe' : a.plan[a.curr_plan_elem + 1]? = some (.leg m r tt) := by
        simpa using hpe
      refine ⟨(m, r, tt), ?_, ?_⟩
      · rw [departure, if_neg (by simp [Agent.advance_plan, hodd])]
        simp [Agent.curr_leg, Agent.curr_plan_element, Agent.advance_plan, hpe']
      · simp [Agent.advance_plan, hodd]

/-- Witness for `departure_lands_on_leg` at a concrete activity–leg–activity
plan with the cursor on the first activity. -/
theorem departure_lands_on_leg_witness :
    (∀ i pe, c8Agent.plan.get? i = some pe → (pe.isActivity = true ↔ i % 2 = 0)) ∧
    c8Agent.curr_plan_elem % 2 = 0 ∧ c8Agent.curr_plan_elem + 1 < c8Agent.plan.length ∧
    ∃ leg, departure c8Agent = some (c8Agent.advance_plan, leg) ∧
      (c8Agent.advance_plan).curr_plan_elem % 2 = 1 := by
  have halt : ∀ i pe, c8Agent.plan.get? i = some pe → (pe.isActivity = true ↔ i % 2 = 0) := by
    intro i pe h
    match i with
    | 0 => simp [c8Agent] at h; subst h; decide
    | 1 => simp [c8Agent] at h; subst h; decide
    | 2 => simp [c8Agent] at h; subst h; decide
    | (n + 3) => simp [c8Agent] at h
  exact ⟨halt, rfl, by decide, departure_lands_on_leg c8Agent halt rfl (by decide)⟩

/-- C9: unparking a parked vehicle and parking it again returns the same
agent and restores a garage record for the vehicle id with its original
vehicle type; the in-flight vehicle always starts at route index 0 with
max_v and pce taken from the vehicle type. -/
theorem unpark_park_roundtrip (g : Garage) (a : Agent) (v : ℕ)
    (gv : GarageVehicle) (vt : VehicleType)
    (hveh : g.vehiclesGet v = some gv)
    (htype : g.typesGet gv.veh_type = some vt)
    (hwf : vt.id = gv.veh_type) :
    ∃ veh g', g.unpark_veh a v = some (veh, g') ∧
      veh.curr_route_elem = 0 ∧ veh.max_v = vt.max_v ∧ veh.pce = vt.pce ∧
      ∃ g'', g'.park_veh veh = some (a, g'') ∧
        g''.vehiclesGet v = some { id := v, veh_type := gv.veh_type } := by
  have hunpark : g.unpark_veh a v =
      some ({ id := v, vtype := vt.id, max_v := vt.max_v, pce := vt.pce,
              curr_route_elem := 0, route := (legRouteOf a).1,
              travel_time := (legRouteOf a).2, agent := some a },
            g.vehiclesRemove v) := by
    simp [Garage.unpark_veh, hveh, htype]
  refine ⟨_, _, hunpark, rfl, rfl, rfl, _, rfl, ?_⟩
  simp [Garage.park_veh, Garage.vehiclesInsert, Garage.vehiclesGet, hwf]

/-- Witness for `unpark_park_roundtrip` at a concrete garage holding
vehicle 4 of type 2. -/
theorem unpark_park_roundtrip_witness :
    c9Garage.vehiclesGet 4 = some { id := 4, veh_type := 2 } ∧
    c9Garage.typesGet 2 =
      some { id := 2, max_v := 13, pce := 2, net_mode := 0, lod := .network } ∧
    ∃ veh g', c9Garage.unpark_veh c9Agent 4 = some (veh, g') ∧
      veh.curr_route_elem = 0 ∧ veh.max_v = 13 ∧ veh.pce = 2 ∧
      ∃ g'', g'.park_veh veh = some (c9Agent, g'') ∧
        g''.vehiclesGet 4 = some { id := 4, veh_type := 2 } :=
  ⟨rfl, rfl,
   unpark_park_roundtrip c9Garage c9Agent 4 { id := 4, veh_type := 2 }
     { id := 2, max_v := 13, pce := 2, net_mode := 0, lod := .network } rfl rfl rfl⟩

/-- Appending one keyed message changes the key count by one exactly at its
key. -/
theorem countKey_append (msgs : OutMessages) (m : ℕ) (msg : SyncMessage) (n : ℕ) :
    countKey (msgs ++ [(m, msg)]) n = countKey msgs n + if m = n then 1 else 0 := by
  simp only [countKey, List.filter_append, List.length_append]
  by_cases h : m = n <;> simp [h]

/-- A key is found iff it has a positive count. -/
theorem lookupKey_isSome_iff (msgs : OutMessages) (n : ℕ) :
    (lookupKey msgs n).isSome ↔ 0 < countKey msgs n := by
  induction msgs with
  | nil => simp [lookupKey, countKey]
  | cons p rest ih =>
      by_cases hp : p.1 = n
      · have h1 : List.find? (fun q => decide (q.1 = n)) (p :: rest) = some p :=
          List.find?_cons_of_pos _ (by simp [hp])
        simp [lookupKey, countKey, h1, hp]
      · have h1 : List.find? (fun q => decide (q.1 = n)) (p :: rest) =
            List.find? (fun q => decide (q.1 = n)) rest :=
          List.find?_cons_of_neg _ (by simp [hp])
        simpa [lookupKey, countKey, h1, hp] using ih

/-- Unfolding one neighbor of `prepare_send_recv_vehicles`. -/
theorem prepare_cons (rank now nb : ℕ) (rest : List ℕ) (msgs : OutMessages) :
    prepare_send_recv_vehicles rank msgs (nb :: rest) now =
    prepare_send_recv_vehicles rank
      (if (lookupKey msgs nb).isSome then msgs
       else msgs ++ [(nb, SyncMessage.new now rank nb)]) rest now := by
  by_cases hl : (lookupKey msgs nb).isSome <;>
    simp [prepare_send_recv_vehicles, List.foldl_cons, hl]

/-- `prepare_send_recv_vehicles` never touches a key that is already
present. -/
theorem prepare_countKey_pos (rank now : ℕ) :
    ∀ (nbs : List ℕ) (msgs : OutMessages) (n : ℕ), 0 < countKey msgs n →
      countKey (prepare_send_recv_vehicles rank msgs nbs now) n = countKey msgs n := by
  intro nbs
  induction nbs with
  | nil => intro msgs n _; rfl
  | cons nb rest ih =>
      intro msgs n h
      rw [prepare_cons]
      by_cases hl : (lookupKey msgs nb).isSome
      · rw [if_pos hl]
        exact ih msgs n h
      · rw [if_neg hl]
        have hne : ¬ nb = n := by
          intro he
          subst he
          exact hl ((lookupKey_isSome_iff msgs nb).mpr h)
        have hcnt : countKey (msgs ++ [(nb, SyncMessage.new now rank nb)]) n =
            countKey msgs n := by
          rw [countKey_append, if_neg hne]
          omega
        rw [ih _ n (by rw [hcnt]; exact h), hcnt]

/-- After `prepare_send_recv_vehicles`, every neighbor has exactly one
outbound message (given that the outbound map had unique keys). -/
theorem prepare_countKey_mem (rank now : ℕ) :
    ∀ (nbs : List ℕ) (msgs : OutMessages) (n : ℕ), n ∈ nbs → countKey msgs n ≤ 1 →
      countKey (prepare_send_recv_vehicles rank msgs nbs now) n = 1 := by
  intro nbs
  induction nbs with
  | nil => intro msgs n hn _; cases hn
  | cons nb rest ih =>
      intro msgs n hn hle
      rw [prepare_cons]
      by_cases hmem : n ∈ rest
      · by_cases hl : (lookupKey msgs nb).isSome
        · rw [if_pos hl]; exact ih msgs n hmem hle
        · rw [if_neg hl]
          refine ih _ n hmem ?_
          rw [countKey_append]
          by_cases he : nb = n
          · subst he
            have : countKey msgs nb = 0 := by
              by_contra hc
              exact hl ((lookupKey_isSome_iff msgs nb).mpr (Nat.pos_of_ne_zero hc))
            simp [this]
          · simpa [he] using hle
      · have he : nb = n := by
          cases List.mem_cons.mp hn with
          | inl h => exact h.symm
          | inr h => exact absurd h hmem
        subst he
        by_cases hl : (lookupKey msgs nb).isSome
        · rw [if_pos hl]
          have hpos := (lookupKey_isSome_iff msgs nb).mp hl
          rw [prepare_countKey_pos rank now rest msgs nb hpos]
          omega
        · rw [if_neg hl]
          have hz : countKey msgs nb = 0 := by
            by_contra hc
            exact hl ((lookupKey_isSome_iff msgs nb).mpr (Nat.pos_of_ne_zero hc))
          have hone : countKey (msgs ++ [(nb, SyncMessage.new now rank nb)]) nb = 1 := by
            rw [countKey_append, if_pos rfl, hz]
          rw [prepare_countKey_pos rank now rest _ nb (by rw [hone]; exact Nat.one_pos), hone]

/-- `prepare_send_recv_vehicles` only appends entries. -/
theorem prepare_mem_mono (rank now : ℕ) :
    ∀ (nbs : List ℕ) (msgs : OutMessages) (x : ℕ × SyncMessage), x ∈ msgs →
      x ∈ prepare_send_recv_vehicles rank msgs nbs now := by
  intro nbs
  induction nbs with
  | nil => intro msgs x hx; exact hx
  | cons nb rest ih =>
      intro msgs x hx
      rw [prepare_cons]
      by_cases hl : (lookupKey msgs nb).isSome
      · rw [if_pos hl]; exact ih msgs x hx
      · rw [if_neg hl]
        exact ih _ x (List.mem_append.mpr (Or.inl hx))

/-- Every neighbor without an outbound message gets the empty message with
header (now, self, dest). -/
theorem prepare_inserts_empty (rank now : ℕ) :
    ∀ (nbs : List ℕ) (msgs : OutMessages) (n : ℕ), n ∈ nbs → countKey msgs n = 0 →
      (n, SyncMessage.new now rank n) ∈ prepare_send_recv_vehicles rank msgs nbs now := by
  intro nbs
  induction nbs with
  | nil => intro msgs n hn _; cases hn
  | cons nb rest ih =>
      intro msgs n hn hz
      rw [prepare_cons]
      by_cases he : nb = n
      · subst he
        have hl : ¬ (lookupKey msgs nb).isSome := by
          intro hl
          have := (lookupKey_isSome_iff msgs nb).mp hl
          omega
        rw [if_neg hl]
        exact prepare_mem_mono rank now rest _ _ (List.mem_append.mpr (Or.inr (by simp)))
      · have hmem : n ∈ rest := by
          cases List.mem_cons.mp hn with
          | inl h => exact absurd h.symm he
          | inr h => exact h
        by_cases hl : (lookupKey msgs nb).isSome
        · rw [if_pos hl]; exact ih msgs n hmem hz
        · rw [if_neg hl]
          refine ih _ n hmem ?_
          rw [countKey_append, if_neg he, hz]

/-- The receive loop returns (rather than blocking) iff the stream holds a
tick-`now` message from every expected rank. -/
theorem send_receive_vehicles_isSome_iff (now : ℕ) :
    ∀ (stream : List SyncMessage) (expected : Finset ℕ),
      (send_receive_vehicles stream expected now).isSome ↔
      ∀ p ∈ expected, ∃ m ∈ stream, m.from_process = p ∧ m.time = now := by
  intro stream
  induction stream with
  | nil =>
      intro expected
      by_cases h : expected = ∅
      · rw [send_receive_vehicles, if_pos h]
        simp [h]
      · rw [send_receive_vehicles, if_neg h]
        simp only [Option.isSome_none, Bool.false_eq_true, false_iff, not_forall]
        obtain ⟨p, hp⟩ := Finset.nonempty_iff_ne_empty.mpr h
        exact ⟨p, hp, by simp⟩
  | cons m rest ih =>
      intro expected
      by_cases h : expected = ∅
      · rw [send_receive_vehicles, if_pos h]
        simp [h]
      · rw [send_receive_vehicles, if_neg h]
        simp only [Option.isSome_map']
        rw [ih]
        constructor
        · intro hall p hp
          by_cases ht : m.time = now
          · by_cases hfrom : m.from_process = p
            · exact ⟨m, by simp, hfrom, ht⟩
            · have hp1 : p ∈ expected.erase m.from_process :=
                Finset.mem_erase.mpr ⟨fun he => hfrom he.symm, hp⟩
              obtain ⟨m', hm', hf', ht'⟩ := hall p (by simpa [ht] using hp1)
              exact ⟨m', by simp [hm'], hf', ht'⟩
          · obtain ⟨m', hm', hf', ht'⟩ := hall p (by simpa [ht] using hp)
            exact ⟨m', by simp [hm'], hf', ht'⟩
        · intro hall p hp1
          by_cases ht : m.time = now
          · rw [if_pos ht] at hp1
            have hpe := Finset.mem_erase.mp hp1
            obtain ⟨m', hm', hf', ht'⟩ := hall p hpe.2
            cases List.mem_cons.mp hm' with
            | inl heq =>
                subst heq
                exact absurd hf' (fun hf => hpe.1 (by rw [← hf]))
            | inr hmem => exact ⟨m', hmem, hf', ht'⟩
          · rw [if_neg ht] at hp1
            obtain ⟨m', hm', hf', ht'⟩ := hall p hp1
            cases List.mem_cons.mp hm' with
            | inl heq => subst heq; exact absurd ht' ht
            | inr hmem => exact ⟨m', hmem, hf', ht'⟩

/-- After popping the cache (sorted by tick, all ticks ≥ now), the still-
expected ranks are exactly the expected ones without a buffered tick-`now`
message. -/
theorem pop_from_cache_expected (now : ℕ) :
    ∀ (cache : List SyncMessage) (expected : Finset ℕ),
      List.Pairwise (fun x y => x.time ≤ y.time) cache →
      (∀ m ∈ cache, now ≤ m.time) →
      ∀ p, (p ∈ (pop_from_cache cache expected now).2.1 ↔
        (p ∈ expected ∧ ¬ ∃ m ∈ cache, m.from_process = p ∧ m.time = now)) := by
  intro cache
  induction cache with
  | nil =>
      intro expected _ _ p
      simp [pop_from_cache]
  | cons m rest ih =>
      intro expected hsort hge p
      rw [pop_from_cache]
      by_cases ht : m.time ≤ now
      · have htime : m.time = now := le_antisymm ht (hge m (by simp))
        rw [if_pos ht]
        have hsort' := (List.pairwise_cons.mp hsort).2
        have hge' : ∀ x ∈ rest, now ≤ x.time := fun x hx => hge x (by simp [hx])
        rw [ih (expected.erase m.from_process) hsort' hge' p]
        constructor
        · rintro ⟨hp, hno⟩
          have hpe := Finset.mem_erase.mp hp
          refine ⟨hpe.2, ?_⟩
          rintro ⟨m', hm', hf', ht'⟩
          cases List.mem_cons.mp hm' with
          | inl heq => subst heq; exact hpe.1 (by rw [← hf'])
          | inr hmem => exact hno ⟨m', hmem, hf', ht'⟩
        · rintro ⟨hp, hno⟩
          refine ⟨Finset.mem_erase.mpr ⟨?_, hp⟩, ?_⟩
          · intro heq
            exact hno ⟨m, by simp, heq.symm, htime⟩
          · rintro ⟨m', hm', hf', ht'⟩
            exact hno ⟨m', by simp [hm'], hf', ht'⟩
      · rw [if_neg ht]
        constructor
        · intro hp
          refine ⟨hp, ?_⟩
          rintro ⟨m', hm', hf', ht'⟩
          cases List.mem_cons.mp hm' with
          | inl heq => subst heq; exact ht (le_of_eq ht')
          | inr hmem =>
              have hle := (List.pairwise_cons.mp hsort).1 m' hmem
              exact ht (le_trans hle (le_of_eq ht'))
        · intro h
          exact h.1

/-- C2: `send_recv(now)` sends exactly one message to each neighbor,
inserting the empty message with header (now, self, dest) for every
neighbor not already targeted this tick, and it returns (instead of
blocking) iff every neighbor has supplied — buffered or in the incoming
stream — a message whose tick equals `now`.  Hypotheses: the outbound map
has unique keys (HashMap), and the cache is the by-tick heap of
not-yet-due messages (sorted, ticks ≥ now). -/
theorem send_recv_spec (b : NetMessageBroker) (stream : List SyncMessage) (now : ℕ)
    (hkeys : ∀ n, countKey b.out_messages n ≤ 1)
    (hsorted : List.Pairwise (fun x y => x.time ≤ y.time) b.in_messages)
    (hge : ∀ m ∈ b.in_messages, now ≤ m.time) :
    (∀ n ∈ b.neighbors,
      countKey (b.sent_messages now) n = 1 ∧
      (countKey b.out_messages n = 0 →
        (n, SyncMessage.new now b.rank n) ∈ b.sent_messages now)) ∧
    ((b.send_recv stream now).isSome ↔
      ∀ n ∈ b.neighbors,
        (∃ m ∈ b.in_messages, m.from_process = n ∧ m.time = now) ∨
        (∃ m ∈ stream, m.from_process = n ∧ m.time = now)) := by
  constructor
  · intro n hn
    exact ⟨prepare_countKey_mem b.rank now b.neighbors b.out_messages n hn (hkeys n),
      fun hz => prepare_inserts_empty b.rank now b.neighbors b.out_messages n hn hz⟩
  · have hmain : (b.send_recv stream now).isSome =
        (send_receive_vehicles stream
          (pop_from_cache b.in_messages b.neighbors.toFinset now).2.1 now).isSome := by
      rw [NetMessageBroker.send_recv]
      cases send_receive_vehicles stream
          (pop_from_cache b.in_messages b.neighbors.toFinset now).2.1 now with
      | none => rfl
      | some r => rfl
    rw [hmain, send_receive_vehicles_isSome_iff]
    constructor
    · intro hall n hn
      by_cases hc : ∃ m ∈ b.in_messages, m.from_process = n ∧ m.time = now
      · exact Or.inl hc
      · refine Or.inr (hall n ?_)
        exact (pop_from_cache_expected now b.in_messages b.neighbors.toFinset hsorted hge n).mpr
          ⟨List.mem_toFinset.mpr hn, hc⟩
    · intro hall p hp
      have hpe := (pop_from_cache_expected now b.in_messages b.neighbors.toFinset
        hsorted hge p).mp hp
      cases hall p (List.mem_toFinset.mp hpe.1) with
      | inl hc => exact absurd hc hpe.2
      | inr hs => exact hs

/-- Witness for `send_recv_spec`: rank 0, single neighbor 1, empty caches,
and a stream holding neighbor 1's tick-0 message. -/
theorem send_recv_spec_witness :
    (∀ n, countKey c2Broker.out_messages n ≤ 1) ∧
    List.Pairwise (fun x y => x.time ≤ y.time) c2Broker.in_messages ∧
    (∀ m ∈ c2Broker.in_messages, 0 ≤ m.time) ∧
    ((∀ n ∈ c2Broker.neighbors,
      countKey (c2Broker.sent_messages 0) n = 1 ∧
      (countKey c2Broker.out_messages n = 0 →
        (n, SyncMessage.new 0 c2Broker.rank n) ∈ c2Broker.sent_messages 0)) ∧
    ((c2Broker.send_recv c2Stream 0).isSome ↔
      ∀ n ∈ c2Broker.neighbors,
        (∃ m ∈ c2Broker.in_messages, m.from_process = n ∧ m.time = 0) ∨
        (∃ m ∈ c2Stream, m.from_process = n ∧ m.time = 0))) := by
  have h1 : ∀ n, countKey c2Broker.out_messages n ≤ 1 := by
    intro n
    simp [countKey, c2Broker]
  have h2 : List.Pairwise (fun x y => x.time ≤ y.time) c2Broker.in_messages :=
    List.Pairwise.nil
  have h3 : ∀ m ∈ c2Broker.in_messages, 0 ≤ m.time := by
    intro m hm
    cases hm
  exact ⟨h1, h2, h3, send_recv_spec c2Broker c2Stream 0 h1 h2 h3⟩

/-- C3 (counterexample): at a node with two empty in-links, the draw
sequence [0,0,0,0,0,1] completes the loop in 6 iterations of which 4 are
redraws of the already-unavailable in-link 10 — iterations that neither
remove a vehicle nor mark a link — so the iteration count (6) exceeds
in-links + vehicles moved (2 + 0); and the loop does not finish at all on
the draw sequence [0,0,0,0,0] (an RNG that keeps sampling link 10 loops
forever). -/
theorem move_node_iteration_neither_pops_nor_marks :
    (moveNodeRun c3Node 0 [0, 0, 0, 0, 0, 1] c3State).map
        (fun r => (r.2.1, r.2.2, r.1.exited.length)) =
      some ([Step.mark 10, Step.redraw 10, Step.redraw 10, Step.redraw 10,
             Step.redraw 10, Step.mark 20], true, 0) ∧
    ¬ ([Step.mark 10, Step.redraw 10, Step.redraw 10, Step.redraw 10,
        Step.redraw 10, Step.mark 20].length ≤ c3Node.in_links.length + 0) ∧
    (moveNodeRun c3Node 0 [0, 0, 0, 0, 0] c3State).map (fun r => r.2.2) = some false := by
  decide

/-- C3 (amended): in every run of the per-node transition loop each
iteration pops a vehicle, marks an in-link, or redraws an
already-unavailable in-link; the marking iterations are bounded by the
number of in-links (the unavailable set grows by exactly one per mark and
never exceeds the in-links), so iterations that pop or mark number at most
in-links + vehicles popped. -/
theorem move_node_productive_bound (node : SimNode) (now : ℕ) :
    ∀ (draws : List ℕ) (s s' : MoveNodeState) (tr : List Step) (c : Bool),
      moveNodeRun node now draws s = some (s', tr, c) →
      s.unavailable.card ≤ node.in_links.length →
      s'.unavailable.card = s.unavailable.card + countMarks tr ∧
      s'.unavailable.card ≤ node.in_links.length ∧
      s'.exited.length = s.exited.length + countExits tr ∧
      tr.length = countRedraws tr + countMarks tr + countPops tr ∧
      countMarks tr + countPops tr ≤ node.in_links.length + countPops tr := by
  intro draws
  induction draws with
  | nil =>
      intro s s' tr c hrun hcard
      rw [moveNodeRun] at hrun
      split at hrun <;>
      · injection hrun with h
        have hs : s = s' := congrArg Prod.fst h
        have htr : ([] : List Step) = tr := congrArg (fun p => p.2.1) h
        subst hs
        subst htr
        simp [countMarks, countPops, countRedraws, countExits, hcard]
  | cons d rest ih =>
      intro s s' tr c hrun hcard
      rw [moveNodeRun] at hrun
      by_cases hguard : node.in_links.length ≤ s.unavailable.card
      · rw [if_pos hguard] at hrun
        injection hrun with h
        have hs : s = s' := congrArg Prod.fst h
        have htr : ([] : List Step) = tr := congrArg (fun p => p.2.1) h
        subst hs
        subst htr
        simp [countMarks, countPops, countRedraws, countExits, hcard]
      · rw [if_neg hguard] at hrun
        cases hw : node.in_links_weights with
        | none => simp only [hw] at hrun; cases hrun
        | some w =>
        simp only [hw] at hrun
        cases hg : node.in_links.get? d with
        | none => simp only [hg] at hrun; cases hrun
        | some in_link_id =>
        simp only [hg] at hrun
        by_cases hmem : in_link_id ∈ s.unavailable
        · rw [if_pos hmem] at hrun
          rw [Option.map_eq_some'] at hrun
          obtain ⟨⟨s1, tr1, c1⟩, hrec, heq⟩ := hrun
          have hs : s1 = s' := congrArg Prod.fst heq
          have htr : Step.redraw in_link_id :: tr1 = tr := congrArg (fun p => p.2.1) heq
          subst hs
          subst htr
          obtain ⟨h1, h2, h3, h4, h5⟩ := ih _ _ _ _ hrec hcard
          simp [countMarks, countPops, countRedraws, countExits,
            Step.isMark, Step.isPop, Step.isRedraw, Step.isPopExit] at h1 h3 h4 h5 ⊢
          omega
        · rw [if_neg hmem] at hrun
          cases hsm : should_veh_move_out in_link_id s.links now with
          | none => simp only [hsm] at hrun; cases hrun
          | some b =>
          simp only [hsm] at hrun
          cases b with
          | true =>
              cases hlg : linksGet s.links in_link_id with
              | none => simp only [hlg] at hrun; cases hrun
              | some in_link =>
              simp only [hlg] at hrun
              cases hpop : in_link.pop_veh with
              | none => simp only [hpop] at hrun; cases hrun
              | some p =>
              obtain ⟨veh, in_link'⟩ := p
              simp only [hpop] at hrun
              cases hpk : veh.peek_next_route_element with
              | some next_id =>
                  simp only [hpk] at hrun
                  cases hmv : move_vehicle veh (linksSet s.links in_link_id in_link')
                      s.events now with
                  | none => simp only [hmv] at hrun; cases hrun
                  | some lr =>
                  obtain ⟨links2, events2⟩ := lr
                  simp only [hmv] at hrun
                  rw [Option.map_eq_some'] at hrun
                  obtain ⟨⟨s1, tr1, c1⟩, hrec, heq⟩ := hrun
                  have hs : s1 = s' := congrArg Prod.fst heq
                  have htr : Step.popMove veh.id :: tr1 = tr := congrArg (fun p => p.2.1) heq
                  subst hs
                  subst htr
                  obtain ⟨h1, h2, h3, h4, h5⟩ := ih _ _ _ _ hrec hcard
                  simp [countMarks, countPops, countRedraws, countExits,
                    Step.isMark, Step.isPop, Step.isRedraw, Step.isPopExit] at h1 h3 h4 h5 ⊢
                  omega
              | none =>
                  simp only [hpk] at hrun
                  rw [Option.map_eq_some'] at hrun
                  obtain ⟨⟨s1, tr1, c1⟩, hrec, heq⟩ := hrun
                  have hs : s1 = s' := congrArg Prod.fst heq
                  have htr : Step.popExit veh.id :: tr1 = tr := congrArg (fun p => p.2.1) heq
                  subst hs
                  subst htr
                  obtain ⟨h1, h2, h3, h4, h5⟩ := ih _ _ _ _ hrec hcard
                  simp only [List.length_append, List.length_singleton] at h3
                  simp [countMarks, countPops, countRedraws, countExits,
                    Step.isMark, Step.isPop, Step.isRedraw, Step.isPopExit] at h1 h3 h4 h5 ⊢
                  omega
          | false =>
              rw [Option.map_eq_some'] at hrun
              obtain ⟨⟨s1, tr1, c1⟩, hrec, heq⟩ := hrun
              have hs : s1 = s' := congrArg Prod.fst heq
              have htr : Step.mark in_link_id :: tr1 = tr := congrArg (fun p => p.2.1) heq
              subst hs
              subst htr
              have hins : (insert in_link_id s.unavailable).card = s.unavailable.card + 1 :=
                Finset.card_insert_of_not_mem hmem
              have hcard2 : (insert in_link_id s.unavailable).card ≤ node.in_links.length := by
                omega
              obtain ⟨h1, h2, h3, h4, h5⟩ := ih _ _ _ _ hrec hcard2
              simp only [hins] at h1
              simp [countMarks, countPops, countRedraws, countExits,
                Step.isMark, Step.isPop, Step.isRedraw, Step.isPopExit] at h1 h3 h4 h5 ⊢
              omega

/-- Witness for `move_node_productive_bound` at the concrete two-in-link
node and draw list of the counterexample run. -/
theorem move_node_productive_bound_witness :
    (∃ s' tr c, moveNodeRun c3Node 0 [0, 1] c3State = some (s', tr, c) ∧
      c3State.unavailable.card ≤ c3Node.in_links.length ∧
      s'.unavailable.card = c3State.unavailable.card + countMarks tr ∧
      s'.unavailable.card ≤ c3Node.in_links.length ∧
      s'.exited.length = c3State.exited.length + countExits tr ∧
      tr.length = countRedraws tr + countMarks tr + countPops tr ∧
      countMarks tr + countPops tr ≤ c3Node.in_links.length + countPops tr) := by
  have hrun : moveNodeRun c3Node 0 [0, 1] c3State =
      some ({ c3State with unavailable := insert 20 (insert 10 c3State.unavailable) },
        [Step.mark 10, Step.mark 20], true) := by decide
  have hcard : c3State.unavailable.card ≤ c3Node.in_links.length := by decide
  obtain ⟨h1, h2, h3, h4, h5⟩ :=
    move_node_productive_bound c3Node 0 [0, 1] c3State _ _ _ hrun hcard
  exact ⟨_, _, _, hrun, hcard, h1, h2, h3, h4, h5⟩

end RustQSim
